import Mathlib

/-!
Verification of the mathematical core of `simple_diffusion.py`
(continuous-time Gaussian diffusion: log-SNR schedules, forward corruption,
posterior estimation, ancestral sampling, training loss).

Tensors are modelled elementwise as functions `Fin B → Fin C → Fin H → Fin W → ℝ`;
torch scalar operations become operations on `ℝ`; the denoiser network is a
black-box function field; randomness is an explicitly injected noise argument.
-/

namespace SimpleDiffusion

noncomputable section

/-- `torch.sigmoid` over the reals. -/
def sigmoid (x : ℝ) : ℝ := 1 / (1 + Real.exp (-x))

/-- `torch.special.expm1` over the reals. -/
def expm1 (x : ℝ) : ℝ := Real.exp x - 1

/-- `Tensor.clamp_(lo, hi)` / `torch.clamp`. -/
def clamp (x lo hi : ℝ) : ℝ := min (max x lo) hi

/-- The repository's `log` helper: `torch.log(t.clamp(min = 1e-20))`. -/
def logClamped (t : ℝ) : ℝ := Real.log (max t 1e-20)

/-- `normalize_to_neg_one_to_one`, elementwise. -/
def normalize_to_neg_one_to_one (img : ℝ) : ℝ := img * 2 - 1

/-- `unnormalize_to_zero_to_one`, elementwise. -/
def unnormalize_to_zero_to_one (t : ℝ) : ℝ := (t + 1) * 0.5

/-- `t_min = math.atan(math.exp(-0.5 * logsnr_max))` in `logsnr_schedule_cosine`. -/
def cosineTMin (logsnr_max : ℝ) : ℝ := Real.arctan (Real.exp (-0.5 * logsnr_max))

/-- `t_max = math.atan(math.exp(-0.5 * logsnr_min))` in `logsnr_schedule_cosine`. -/
def cosineTMax (logsnr_min : ℝ) : ℝ := Real.arctan (Real.exp (-0.5 * logsnr_min))

/-- `logsnr_schedule_cosine(t, logsnr_min, logsnr_max)` from the source. -/
def logsnr_schedule_cosine (t logsnr_min logsnr_max : ℝ) : ℝ :=
  -2 * logClamped (Real.tan (cosineTMin logsnr_max +
    t * (cosineTMax logsnr_min - cosineTMin logsnr_max)))

/-- The default-parameter instance (`logsnr_min = -15`, `logsnr_max = 15`). -/
def logsnrCosineDefault (t : ℝ) : ℝ := logsnr_schedule_cosine t (-15) 15

/-- The argument handed to `torch.tan` by the default cosine schedule. -/
def cosineArg (t : ℝ) : ℝ :=
  cosineTMin 15 + t * (cosineTMax (-15) - cosineTMin 15)

/-- `logsnr_schedule_shifted(fn, image_d, noise_d)`: adds `2*log(noise_d/image_d)`. -/
def logsnr_schedule_shifted (fn : ℝ → ℝ) (image_d noise_d : ℝ) : ℝ → ℝ :=
  fun t => fn t + 2 * Real.log (noise_d / image_d)

/-- `logsnr_schedule_interpolated(fn, image_d, noise_d_low, noise_d_high)`. -/
def logsnr_schedule_interpolated (fn : ℝ → ℝ) (image_d noise_d_low noise_d_high : ℝ) :
    ℝ → ℝ :=
  fun t => t * logsnr_schedule_shifted fn image_d noise_d_low t +
    (1 - t) * logsnr_schedule_shifted fn image_d noise_d_high t

/-- The three schedule configurations `GaussianDiffusion.__init__` can build
around the default cosine base. -/
inductive ScheduleVariant where
  | base : ScheduleVariant
  | shifted (image_d noise_d : ℝ) : ScheduleVariant
  | interpolated (image_d noise_d_low noise_d_high : ℝ) : ScheduleVariant

/-- The `self.log_snr` function each variant installs. -/
def ScheduleVariant.log_snr : ScheduleVariant → ℝ → ℝ
  | .base => logsnrCosineDefault
  | .shifted image_d noise_d =>
      logsnr_schedule_shifted logsnrCosineDefault image_d noise_d
  | .interpolated image_d noise_d_low noise_d_high =>
      logsnr_schedule_interpolated logsnrCosineDefault image_d noise_d_low noise_d_high

/-- Side condition under which a variant's schedule is non-increasing: the
interpolated variant additionally needs its low shift not to exceed its high
shift (true in particular when `0 < noise_d_low ≤ noise_d_high`). -/
def ScheduleVariant.monotoneOK : ScheduleVariant → Prop
  | .interpolated image_d noise_d_low noise_d_high =>
      Real.log (noise_d_low / image_d) ≤ Real.log (noise_d_high / image_d)
  | _ => True

/-- `alpha = sqrt(sigmoid(log_snr))`. -/
def alphaOf (l : ℝ) : ℝ := Real.sqrt (sigmoid l)

/-- `sigma = sqrt(sigmoid(-log_snr))`. -/
def sigmaOf (l : ℝ) : ℝ := Real.sqrt (sigmoid (-l))

/-- A rank-4 tensor `[B, C, H, W]`, elementwise. -/
abbrev Img (B C H W : ℕ) : Type := Fin B → Fin C → Fin H → Fin W → ℝ

/-- `pred_objective`: `'v'` or `'eps'` (the constructor asserts membership). -/
inductive PredObjective where
  | v : PredObjective
  | eps : PredObjective

/-- The state `GaussianDiffusion.__init__` stores: the black-box denoiser
`model`, the image dimensions, the objective, the composed `log_snr` schedule,
the sampling step count, and the (stored) `clip_sample_denoised` flag. -/
structure GaussianDiffusion where
  model : (B C H W : ℕ) → Img B C H W → (Fin B → ℝ) → Img B C H W
  image_size : ℕ
  channels : ℕ
  pred_objective : PredObjective
  log_snr : ℝ → ℝ
  num_sample_steps : ℕ
  clip_sample_denoised : Bool

/-- `GaussianDiffusion.p_mean_variance(x, time, time_next)`, translated line by
line; returns the model-mean tensor and the scalar posterior variance. -/
def p_mean_variance (g : GaussianDiffusion) {B C H W : ℕ} (x : Img B C H W)
    (time time_next : ℝ) : Img B C H W × ℝ :=
  let log_snr := g.log_snr time
  let log_snr_next := g.log_snr time_next
  let c := -expm1 (log_snr - log_snr_next)
  let squared_alpha := sigmoid log_snr
  let squared_alpha_next := sigmoid log_snr_next
  let squared_sigma := sigmoid (-log_snr)
  let squared_sigma_next := sigmoid (-log_snr_next)
  let alpha := Real.sqrt squared_alpha
  let sigma := Real.sqrt squared_sigma
  let alpha_next := Real.sqrt squared_alpha_next
  let batch_log_snr : Fin B → ℝ := fun _ => log_snr
  let pred := g.model B C H W x batch_log_snr
  let x_start : Img B C H W :=
    match g.pred_objective with
    | .v => fun b ch i j => alpha * x b ch i j - sigma * pred b ch i j
    | .eps => fun b ch i j => (x b ch i j - sigma * pred b ch i j) / alpha
  let x_start_clamped : Img B C H W := fun b ch i j => clamp (x_start b ch i j) (-1) 1
  let model_mean : Img B C H W := fun b ch i j =>
    alpha_next * (x b ch i j * (1 - c) / alpha + c * x_start_clamped b ch i j)
  let posterior_variance := squared_sigma_next * c
  (model_mean, posterior_variance)

/-- The clean-sample estimate exactly as the specification words it:
`alpha·x − sigma·pred` in velocity mode, `(x − sigma·pred)/alpha` in noise
mode, with `alpha = sqrt(sigmoid(logSNR(time)))`, `sigma = sqrt(sigmoid(−logSNR(time)))`
and `pred` the denoiser output. -/
def specXStart (g : GaussianDiffusion) {B C H W : ℕ} (x : Img B C H W)
    (time : ℝ) : Img B C H W :=
  match g.pred_objective with
  | .v => fun b ch i j =>
      Real.sqrt (sigmoid (g.log_snr time)) * x b ch i j -
        Real.sqrt (sigmoid (-g.log_snr time)) *
          g.model B C H W x (fun _ => g.log_snr time) b ch i j
  | .eps => fun b ch i j =>
      (x b ch i j -
        Real.sqrt (sigmoid (-g.log_snr time)) *
          g.model B C H W x (fun _ => g.log_snr time) b ch i j) /
        Real.sqrt (sigmoid (g.log_snr time))

/-- `GaussianDiffusion.p_sample(x, time, time_next)`, with the fresh
standard-normal draw injected as the explicit `noise` argument. -/
def p_sample (g : GaussianDiffusion) {B C H W : ℕ} (x : Img B C H W)
    (time time_next : ℝ) (noise : Img B C H W) : Img B C H W :=
  let mv := p_mean_variance g x time time_next
  if time_next = 0 then mv.1
  else fun b ch i j => mv.1 b ch i j + Real.sqrt mv.2 * noise b ch i j

/-- `torch.linspace(a, b, n)` evaluated at index `i`. -/
def linspace (a b : ℝ) (n : ℕ) (i : ℕ) : ℝ := a + i * (b - a) / ((n : ℝ) - 1)

/-- The sampling chain of `p_sample_loop`: state after `i` reverse transitions,
starting from the injected initial Gaussian draw `img0`, with the per-step
fresh noise injected as `noiseSeq`. -/
def p_sample_chain (g : GaussianDiffusion) {B C H W : ℕ}
    (noiseSeq : ℕ → Img B C H W) (img0 : Img B C H W) : ℕ → Img B C H W
  | 0 => img0
  | i + 1 =>
      p_sample g (p_sample_chain g noiseSeq img0 i)
        (linspace 1 0 (g.num_sample_steps + 1) i)
        (linspace 1 0 (g.num_sample_steps + 1) (i + 1))
        (noiseSeq i)

/-- `GaussianDiffusion.p_sample_loop(shape)`: run the chain, clamp to `[-1,1]`,
unnormalize to `[0,1]`. -/
def p_sample_loop (g : GaussianDiffusion) {B C H W : ℕ} (img0 : Img B C H W)
    (noiseSeq : ℕ → Img B C H W) : Img B C H W :=
  fun b ch i j =>
    unnormalize_to_zero_to_one
      (clamp (p_sample_chain g noiseSeq img0 g.num_sample_steps b ch i j) (-1) 1)

/-- `GaussianDiffusion.sample(batch_size)`: the output shape is
`[batch_size, channels, image_size, image_size]` by construction. -/
def sample (g : GaussianDiffusion) (batch_size : ℕ)
    (img0 : Img batch_size g.channels g.image_size g.image_size)
    (noiseSeq : ℕ → Img batch_size g.channels g.image_size g.image_size) :
    Img batch_size g.channels g.image_size g.image_size :=
  p_sample_loop g img0 noiseSeq

/-- `GaussianDiffusion.q_sample(x_start, times, noise)`: forward corruption;
`log_snr` is per batch element and broadcast over the trailing dimensions. -/
def q_sample (g : GaussianDiffusion) {B C H W : ℕ} (x_start : Img B C H W)
    (times : Fin B → ℝ) (noise : Img B C H W) : Img B C H W × (Fin B → ℝ) :=
  let log_snr : Fin B → ℝ := fun b => g.log_snr (times b)
  let x_noised : Img B C H W := fun b ch i j =>
    x_start b ch i j * Real.sqrt (sigmoid (log_snr b)) +
      noise b ch i j * Real.sqrt (sigmoid (-log_snr b))
  (x_noised, log_snr)

/-- `F.mse_loss` with the default mean reduction. -/
def mse_loss {B C H W : ℕ} (input target : Img B C H W) : ℝ :=
  (∑ b, ∑ ch, ∑ i, ∑ j, (input b ch i j - target b ch i j) ^ 2) /
    ((B : ℝ) * C * H * W)

/-- `GaussianDiffusion.p_losses(x_start, times, noise)`: corrupt, predict,
compute the objective-dependent `target`, and return `F.mse_loss(model_out, noise)`. -/
def p_losses (g : GaussianDiffusion) {B C H W : ℕ} (x_start : Img B C H W)
    (times : Fin B → ℝ) (noise : Img B C H W) : ℝ :=
  let q := q_sample g x_start times noise
  let x := q.1
  let log_snr := q.2
  let model_out := g.model B C H W x log_snr
  let target : Img B C H W :=
    match g.pred_objective with
    | .v => fun b ch i j =>
        Real.sqrt (sigmoid (log_snr b)) * noise b ch i j -
          Real.sqrt (sigmoid (-log_snr b)) * x_start b ch i j
    | .eps => noise
  mse_loss model_out noise

/-- `GaussianDiffusion.forward(img)`: the shape assertion (`h == image_size and
w == image_size`), then normalization and `p_losses`; the per-image uniform
times and the corruption noise are injected explicitly. `none` models the
`AssertionError`. -/
def forward (g : GaussianDiffusion) {B C H W : ℕ} (img : Img B C H W)
    (times : Fin B → ℝ) (noise : Img B C H W) : Option ℝ :=
  if H = g.image_size ∧ W = g.image_size then
    some (p_losses g (fun b ch i j => normalize_to_neg_one_to_one (img b ch i j))
      times noise)
  else none

/-- Rebuild the configuration with a different `clip_sample_denoised` flag,
all other state unchanged. -/
def setClip (g : GaussianDiffusion) (b : Bool) : GaussianDiffusion :=
  ⟨g.model, g.image_size, g.channels, g.pred_objective, g.log_snr,
    g.num_sample_steps, b⟩

/-- Rebuild the configuration with a different `pred_objective`, all other
state unchanged. -/
def setObjective (g : GaussianDiffusion) (o : PredObjective) : GaussianDiffusion :=
  ⟨g.model, g.image_size, g.channels, o, g.log_snr,
    g.num_sample_steps, g.clip_sample_denoised⟩

/-- A concrete configuration: zero denoiser, `image_size = 2`, `channels = 3`,
noise objective, zero schedule, one sampling step. -/
def gExample : GaussianDiffusion :=
  ⟨fun _ _ _ _ _ _ => fun _ _ _ _ => 0, 2, 3, PredObjective.eps, fun _ => 0, 1, true⟩

/-- A concrete `[1, 1, 2, 2]` batch: one single-channel 2×2 image, all zeros —
its channel count (1) differs from `gExample.channels` (3). -/
def imgWrongChannels : Img 1 1 2 2 := fun _ _ _ _ => 0

/-- A concrete all-zero `[1, 1, 1, 1]` tensor. -/
def imgZero11 : Img 1 1 1 1 := fun _ _ _ _ => 0

/- ------------------------------------------------------------------
Helper lemmas.
------------------------------------------------------------------ -/

lemma sigmoid_pos (x : ℝ) : 0 < sigmoid x := by
  unfold sigmoid
  positivity

lemma sigmoid_add_sigmoid_neg (x : ℝ) : sigmoid x + sigmoid (-x) = 1 := by
  unfold sigmoid
  have h1 : 0 < 1 + Real.exp (-x) := by positivity
  have h2 : 0 < 1 + Real.exp (-(-x)) := by positivity
  have hx : Real.exp (-x) * Real.exp x = 1 := by
    rw [← Real.exp_add]
    simp
  field_simp
  nlinarith [hx]

lemma clamp_eq_max_min (z : ℝ) : clamp z (-1) 1 = max (-1) (min z 1) := by
  unfold clamp
  rcases le_total z (-1) with h | h
  · have hz1 : z ≤ (1 : ℝ) := le_trans h (by norm_num)
    rw [max_eq_right h, min_eq_left hz1, max_eq_left h]
    exact min_eq_left (by norm_num)
  · rw [max_eq_left h]
    exact (max_eq_right (le_min h (by norm_num))).symm

/- ------------------------------------------------------------------
Claim theorems.
------------------------------------------------------------------ -/

/-- C8: for every schedule variant and every time, the signal and noise
coefficients `alpha = sqrt(sigmoid(logSNR))` and `sigma = sqrt(sigmoid(-logSNR))`
satisfy the variance-preserving invariant `alpha² + sigma² = 1`. -/
theorem alpha_sq_add_sigma_sq_eq_one (v : ScheduleVariant) (t : ℝ) :
    alphaOf (v.log_snr t) ^ 2 + sigmaOf (v.log_snr t) ^ 2 = 1 := by
  unfold alphaOf sigmaOf
  rw [Real.sq_sqrt (sigmoid_pos _).le, Real.sq_sqrt (sigmoid_pos _).le]
  exact sigmoid_add_sigmoid_neg _

/-- C1: for every configuration, input batch, time vector, and noise tensor,
`p_losses` returns the mean squared error between the denoiser's prediction
and the noise tensor used for corruption; in particular the returned loss is
identical under the velocity and noise objectives (the velocity target is
computed but never used for scoring). -/
theorem p_losses_scores_noise (g : GaussianDiffusion) {B C H W : ℕ}
    (x_start : Img B C H W) (times : Fin B → ℝ) (noise : Img B C H W) :
    p_losses g x_start times noise =
      mse_loss (g.model B C H W (q_sample g x_start times noise).1
        (q_sample g x_start times noise).2) noise ∧
    p_losses (setObjective g PredObjective.v) x_start times noise =
      p_losses (setObjective g PredObjective.eps) x_start times noise :=
  ⟨rfl, rfl⟩

/-- C2: for every configuration, noisy sample, and time pair, and in both
objective modes, `p_mean_variance` returns exactly the pair
`(alpha_next·(x·(1−c)/alpha + c·x_start_clamped), squared_sigma_next·c)` with
`c = 1 − exp(logSNR(time) − logSNR(time_next))`, the alpha/sigma coefficients
taken as square roots of sigmoids of the log-SNR values, and the clean-sample
estimate clamped to `[−1, 1]` before blending. -/
theorem p_mean_variance_closed_form (g : GaussianDiffusion) {B C H W : ℕ}
    (x : Img B C H W) (time time_next : ℝ) :
    p_mean_variance g x time time_next =
      (fun b ch i j =>
        Real.sqrt (sigmoid (g.log_snr time_next)) *
          (x b ch i j * (1 - (1 - Real.exp (g.log_snr time - g.log_snr time_next))) /
              Real.sqrt (sigmoid (g.log_snr time)) +
            (1 - Real.exp (g.log_snr time - g.log_snr time_next)) *
              max (-1) (min (specXStart g x time b ch i j) 1)),
       sigmoid (-g.log_snr time_next) *
         (1 - Real.exp (g.log_snr time - g.log_snr time_next))) := by
  cases hobj : g.pred_objective <;>
  · simp only [p_mean_variance, specXStart, hobj, Prod.mk.injEq]
    constructor
    · funext b ch i j
      rw [clamp_eq_max_min]
      unfold expm1
      ring
    · unfold expm1
      ring

/-- C3 counterexample: the claim says a batch whose channel count differs from
the configured `channels` is rejected, but `forward` only asserts on height and
width: a `[1, 1, 2, 2]` batch fed to a configuration with `channels = 3` and
`image_size = 2` is accepted (no error is raised). -/
theorem forward_accepts_wrong_channels :
    (forward gExample imgWrongChannels (fun _ => 0) (fun _ _ _ _ => 0)).isSome =
      true := by
  simp [forward, gExample]

/-- C3 (amended): `forward` raises the shape-mismatch error (returns `none`),
with the check performed before any computation, if and only if the batch's
height or width differs from the configured `image_size`; the channel count is
not checked. -/
theorem forward_none_iff_bad_height_width (g : GaussianDiffusion) {B C H W : ℕ}
    (img : Img B C H W) (times : Fin B → ℝ) (noise : Img B C H W) :
    forward g img times noise = none ↔
      ¬(H = g.image_size ∧ W = g.image_size) := by
  unfold forward
  split <;> simp_all

/-- C6: `p_sample` returns the posterior mean unchanged (no noise injected)
exactly when `time_next = 0`, and otherwise returns
`mean + sqrt(variance)·noise` with the injected fresh standard-normal draw. -/
theorem p_sample_final_step (g : GaussianDiffusion) {B C H W : ℕ}
    (x : Img B C H W) (time time_next : ℝ) (noise : Img B C H W) :
    (time_next = 0 →
      p_sample g x time time_next noise = (p_mean_variance g x time time_next).1) ∧
    (time_next ≠ 0 →
      p_sample g x time time_next noise = fun b ch i j =>
        (p_mean_variance g x time time_next).1 b ch i j +
          Real.sqrt (p_mean_variance g x time time_next).2 * noise b ch i j) := by
  constructor
  · intro h
    simp [p_sample, h]
  · intro h
    simp [p_sample, h]

/-- C6 witness: both branches of the step rule instantiated at a concrete
configuration and concrete tensors. -/
theorem p_sample_final_step_witness :
    (p_sample gExample imgZero11 1 0 imgZero11 =
      (p_mean_variance gExample imgZero11 1 0).1) ∧
    (p_sample gExample imgZero11 1 (1 / 2) imgZero11 = fun b ch i j =>
      (p_mean_variance gExample imgZero11 1 (1 / 2)).1 b ch i j +
        Real.sqrt (p_mean_variance gExample imgZero11 1 (1 / 2)).2 *
          imgZero11 b ch i j) :=
  ⟨(p_sample_final_step gExample imgZero11 1 0 imgZero11).1 rfl,
   (p_sample_final_step gExample imgZero11 1 (1 / 2) imgZero11).2 (by norm_num)⟩

/-- C5: every element of the sampler's output lies in `[0, 1]` (the final
chain state is clamped to `[−1, 1]` and mapped by `(x+1)·0.5`), and the
discretization grid `torch.linspace(1, 0, num_sample_steps + 1)` satisfies
`steps[i] = 1 − i/num_sample_steps`. -/
theorem sample_range_and_steps (g : GaussianDiffusion) (batch_size : ℕ)
    (img0 : Img batch_size g.channels g.image_size g.image_size)
    (noiseSeq : ℕ → Img batch_size g.channels g.image_size g.image_size) :
    (∀ b ch i j, 0 ≤ sample g batch_size img0 noiseSeq b ch i j ∧
      sample g batch_size img0 noiseSeq b ch i j ≤ 1) ∧
    (∀ i : ℕ, linspace 1 0 (g.num_sample_steps + 1) i =
      1 - (i : ℝ) / (g.num_sample_steps : ℝ)) := by
  constructor
  · intro b ch i j
    unfold sample p_sample_loop unnormalize_to_zero_to_one clamp
    set z := p_sample_chain g noiseSeq img0 g.num_sample_steps b ch i j with hz
    have hlow : (-1 : ℝ) ≤ min (max z (-1)) 1 :=
      le_min (le_max_right z (-1)) (by norm_num)
    have hhigh : min (max z (-1)) 1 ≤ 1 := min_le_right _ _
    constructor <;> nlinarith [hlow, hhigh]
  · intro i
    unfold linspace
    have hcast : ((g.num_sample_steps + 1 : ℕ) : ℝ) - 1 = (g.num_sample_steps : ℝ) := by
      push_cast
      ring
    rw [hcast]
    ring

lemma p_sample_chain_setClip (g : GaussianDiffusion) (b : Bool) {B C H W : ℕ}
    (noiseSeq : ℕ → Img B C H W) (img0 : Img B C H W) (n : ℕ) :
    p_sample_chain (setClip g b) noiseSeq img0 n = p_sample_chain g noiseSeq img0 n := by
  induction n with
  | zero => rfl
  | succ i ih =>
      simp only [p_sample_chain, ih]
      rfl

/-- C9: the `clip_sample_denoised` flag is stored at construction and never
consulted: with identical inputs and identical injected random draws, both the
sampler output and the training-loss computation are unchanged when the flag is
replaced by an arbitrary boolean. -/
theorem clip_flag_never_consulted (g : GaussianDiffusion) (b : Bool)
    (batch_size : ℕ)
    (img0 : Img batch_size g.channels g.image_size g.image_size)
    (noiseSeq : ℕ → Img batch_size g.channels g.image_size g.image_size)
    {B C H W : ℕ} (img : Img B C H W) (times : Fin B → ℝ) (noise : Img B C H W) :
    sample (setClip g b) batch_size img0 noiseSeq =
      sample g batch_size img0 noiseSeq ∧
    forward (setClip g b) img times noise = forward g img times noise := by
  constructor
  · funext bi ch i j
    unfold sample p_sample_loop
    rw [show (setClip g b).num_sample_steps = g.num_sample_steps from rfl,
      p_sample_chain_setClip]
  · rfl

/- ------------------------------------------------------------------
Analytic facts about the default cosine schedule.
------------------------------------------------------------------ -/

lemma exp_const_lt : Real.exp (7.5 : ℝ) < 1e20 := by
  have h1 : Real.exp (7.5 : ℝ) < Real.exp 8 := Real.exp_lt_exp.2 (by norm_num)
  have h2 : Real.exp (8 : ℝ) = Real.exp 1 ^ (8 : ℕ) := by
    rw [← Real.exp_nat_mul]
    norm_num
  have h3 : Real.exp 1 ^ (8 : ℕ) < (2.7182818286 : ℝ) ^ (8 : ℕ) :=
    pow_lt_pow_left₀ Real.exp_one_lt_d9 (Real.exp_pos 1).le (by norm_num)
  have h4 : (2.7182818286 : ℝ) ^ (8 : ℕ) < 1e20 := by norm_num
  calc Real.exp (7.5 : ℝ) < Real.exp 8 := h1
    _ = Real.exp 1 ^ (8 : ℕ) := h2
    _ < (2.7182818286 : ℝ) ^ (8 : ℕ) := h3
    _ < 1e20 := h4

lemma eps_lt_exp_neg : (1e-20 : ℝ) < Real.exp (-7.5) := by
  rw [Real.exp_neg]
  have h : (1e20 : ℝ)⁻¹ < (Real.exp (7.5 : ℝ))⁻¹ :=
    inv_strictAnti₀ (Real.exp_pos _) exp_const_lt
  calc (1e-20 : ℝ) = (1e20 : ℝ)⁻¹ := by norm_num
    _ < (Real.exp (7.5 : ℝ))⁻¹ := h

lemma tMin_pos : 0 < cosineTMin 15 := by
  unfold cosineTMin
  rw [← Real.arctan_zero]
  exact Real.arctan_strictMono (Real.exp_pos _)

lemma tMax_lt_half_pi : cosineTMax (-15) < Real.pi / 2 :=
  Real.arctan_lt_pi_div_two _

lemma tMin_le_tMax : cosineTMin 15 ≤ cosineTMax (-15) :=
  Real.arctan_strictMono.monotone (Real.exp_le_exp.2 (by norm_num))

lemma deltaNonneg : 0 ≤ cosineTMax (-15) - cosineTMin 15 :=
  sub_nonneg.2 tMin_le_tMax

lemma tan_tMin : Real.tan (cosineTMin 15) = Real.exp (-7.5) := by
  unfold cosineTMin
  rw [Real.tan_arctan]
  norm_num

lemma tan_tMax : Real.tan (cosineTMax (-15)) = Real.exp 7.5 := by
  unfold cosineTMax
  rw [Real.tan_arctan]
  norm_num

lemma cosineArg_lb (t : ℝ) (h0 : 0 ≤ t) : cosineTMin 15 ≤ cosineArg t := by
  unfold cosineArg
  have h := mul_nonneg h0 deltaNonneg
  linarith

lemma cosineArg_ub (t : ℝ) (h1 : t ≤ 1) : cosineArg t ≤ cosineTMax (-15) := by
  unfold cosineArg
  have h := mul_le_of_le_one_left deltaNonneg h1
  linarith

lemma cosineArg_pos (t : ℝ) (h0 : 0 ≤ t) : 0 < cosineArg t :=
  lt_of_lt_of_le tMin_pos (cosineArg_lb t h0)

lemma cosineArg_lt_half_pi (t : ℝ) (h1 : t ≤ 1) : cosineArg t < Real.pi / 2 :=
  lt_of_le_of_lt (cosineArg_ub t h1) tMax_lt_half_pi

lemma cosineArg_mono {t1 t2 : ℝ} (h12 : t1 ≤ t2) : cosineArg t1 ≤ cosineArg t2 := by
  unfold cosineArg
  have h := mul_le_mul_of_nonneg_right h12 deltaNonneg
  linarith

lemma cosineArg_mem_Ioo (t : ℝ) (h0 : 0 ≤ t) (h1 : t ≤ 1) :
    cosineArg t ∈ Set.Ioo (-(Real.pi / 2)) (Real.pi / 2) :=
  Set.mem_Ioo.mpr ⟨by
    have hpi := Real.pi_pos
    have := cosineArg_pos t h0
    linarith, cosineArg_lt_half_pi t h1⟩

lemma tMin_mem_Ioo : cosineTMin 15 ∈ Set.Ioo (-(Real.pi / 2)) (Real.pi / 2) :=
  Set.mem_Ioo.mpr ⟨by
    have hpi := Real.pi_pos
    have := tMin_pos
    linarith, lt_of_le_of_lt tMin_le_tMax tMax_lt_half_pi⟩

lemma tMax_mem_Ioo : cosineTMax (-15) ∈ Set.Ioo (-(Real.pi / 2)) (Real.pi / 2) :=
  Set.mem_Ioo.mpr ⟨by
    have hpi := Real.pi_pos
    have := lt_of_lt_of_le tMin_pos tMin_le_tMax
    linarith, tMax_lt_half_pi⟩

lemma tan_cosineArg_lb (t : ℝ) (h0 : 0 ≤ t) (h1 : t ≤ 1) :
    Real.exp (-7.5) ≤ Real.tan (cosineArg t) := by
  rw [← tan_tMin]
  exact Real.strictMonoOn_tan.monotoneOn tMin_mem_Ioo (cosineArg_mem_Ioo t h0 h1)
    (cosineArg_lb t h0)

lemma tan_cosineArg_ub (t : ℝ) (h0 : 0 ≤ t) (h1 : t ≤ 1) :
    Real.tan (cosineArg t) ≤ Real.exp 7.5 := by
  rw [← tan_tMax]
  exact Real.strictMonoOn_tan.monotoneOn (cosineArg_mem_Ioo t h0 h1) tMax_mem_Ioo
    (cosineArg_ub t h1)

lemma tan_cosineArg_mono {t1 t2 : ℝ} (h0 : 0 ≤ t1) (h12 : t1 ≤ t2) (h2 : t2 ≤ 1) :
    Real.tan (cosineArg t1) ≤ Real.tan (cosineArg t2) :=
  Real.strictMonoOn_tan.monotoneOn
    (cosineArg_mem_Ioo t1 h0 (h12.trans h2))
    (cosineArg_mem_Ioo t2 (h0.trans h12) h2)
    (cosineArg_mono h12)

lemma tan_cosineArg_pos (t : ℝ) (h0 : 0 ≤ t) (h1 : t ≤ 1) :
    0 < Real.tan (cosineArg t) :=
  lt_of_lt_of_le (Real.exp_pos _) (tan_cosineArg_lb t h0 h1)

lemma eps_lt_tan_cosineArg (t : ℝ) (h0 : 0 ≤ t) (h1 : t ≤ 1) :
    (1e-20 : ℝ) < Real.tan (cosineArg t) :=
  lt_of_lt_of_le eps_lt_exp_neg (tan_cosineArg_lb t h0 h1)

lemma logsnrCosineDefault_eq_tan (t : ℝ) (h0 : 0 ≤ t) (h1 : t ≤ 1) :
    logsnrCosineDefault t = -2 * Real.log (Real.tan (cosineArg t)) := by
  have e : logsnrCosineDefault t = -2 * logClamped (Real.tan (cosineArg t)) := rfl
  rw [e]
  unfold logClamped
  rw [max_eq_left (eps_lt_tan_cosineArg t h0 h1).le]

lemma logsnrCosineDefault_antitone {t1 t2 : ℝ} (h0 : 0 ≤ t1) (h12 : t1 ≤ t2)
    (h2 : t2 ≤ 1) : logsnrCosineDefault t2 ≤ logsnrCosineDefault t1 := by
  rw [logsnrCosineDefault_eq_tan t1 h0 (h12.trans h2),
    logsnrCosineDefault_eq_tan t2 (h0.trans h12) h2]
  have hpos : 0 < Real.tan (cosineArg t1) :=
    tan_cosineArg_pos t1 h0 (h12.trans h2)
  have hmono := tan_cosineArg_mono h0 h12 h2
  have hlog := Real.log_le_log hpos hmono
  linarith

lemma logsnrCosineDefault_zero : logsnrCosineDefault 0 = 15 := by
  have e := logsnrCosineDefault_eq_tan 0 le_rfl zero_le_one
  have harg : cosineArg 0 = cosineTMin 15 := by
    unfold cosineArg
    ring
  rw [e, harg, tan_tMin, Real.log_exp]
  norm_num

lemma logsnrCosineDefault_one : logsnrCosineDefault 1 = -15 := by
  have e := logsnrCosineDefault_eq_tan 1 zero_le_one le_rfl
  have harg : cosineArg 1 = cosineTMax (-15) := by
    unfold cosineArg
    ring
  rw [e, harg, tan_tMax, Real.log_exp]
  norm_num

/-- C4 counterexample: with interpolation parameters `image_d = 1`,
`noise_d_low = exp 20`, `noise_d_high = 1`, the interpolated schedule is
strictly increasing from `t = 0` (value 15) to `t = 1` (value 25), so the
claim's unconditional non-increase over every parameter choice is false. -/
theorem interpolated_schedule_can_increase :
    (ScheduleVariant.interpolated 1 (Real.exp 20) 1).log_snr 0 <
      (ScheduleVariant.interpolated 1 (Real.exp 20) 1).log_snr 1 := by
  have h0 : (ScheduleVariant.interpolated 1 (Real.exp 20) 1).log_snr 0 = 15 := by
    simp [ScheduleVariant.log_snr, logsnr_schedule_interpolated,
      logsnr_schedule_shifted, logsnrCosineDefault_zero]
  have h1 : (ScheduleVariant.interpolated 1 (Real.exp 20) 1).log_snr 1 = 25 := by
    simp [ScheduleVariant.log_snr, logsnr_schedule_interpolated,
      logsnr_schedule_shifted, logsnrCosineDefault_one, Real.log_exp]
    norm_num
  rw [h0, h1]
  norm_num

/-- C4 (amended): the base and shifted schedules are non-increasing on `[0,1]`
for every parameter choice; the interpolated schedule is non-increasing
provided its low shift does not exceed its high shift
(`log(noise_d_low/image_d) ≤ log(noise_d_high/image_d)`, e.g.
`0 < noise_d_low ≤ noise_d_high`); without that proviso it can increase. -/
theorem schedule_log_snr_antitone (v : ScheduleVariant) (hv : v.monotoneOK)
    (t1 t2 : ℝ) (h0 : 0 ≤ t1) (h12 : t1 ≤ t2) (h2 : t2 ≤ 1) :
    v.log_snr t2 ≤ v.log_snr t1 := by
  have hbase := logsnrCosineDefault_antitone h0 h12 h2
  cases v with
  | base => exact hbase
  | shifted image_d noise_d =>
      simp only [ScheduleVariant.log_snr, logsnr_schedule_shifted]
      linarith
  | interpolated image_d noise_d_low noise_d_high =>
      simp only [ScheduleVariant.monotoneOK] at hv
      simp only [ScheduleVariant.log_snr, logsnr_schedule_interpolated,
        logsnr_schedule_shifted]
      have key : 0 ≤ (t2 - t1) *
          (Real.log (noise_d_high / image_d) - Real.log (noise_d_low / image_d)) :=
        mul_nonneg (by linarith) (by linarith)
      nlinarith [key, hbase]

/-- C4 witness: the amended monotonicity applied to the base variant on the
pair `(0, 1)`. -/
theorem schedule_log_snr_antitone_witness :
    ScheduleVariant.base.log_snr 1 ≤ ScheduleVariant.base.log_snr 0 :=
  schedule_log_snr_antitone ScheduleVariant.base trivial 0 1 le_rfl zero_le_one
    le_rfl

/-- C7: on `[0, 1]` with the default bounds, `logsnr_schedule_cosine` equals
`−2·log(tan(t_min + t·(t_max − t_min)))` with
`t_min = atan(exp(−0.5·15))`, `t_max = atan(exp(−0.5·(−15)))` (the internal
`1e-20` clamp never fires), and the value lies in `[−15, 15]`. -/
theorem logsnr_cosine_default_formula_and_bounds (t : ℝ) (h0 : 0 ≤ t)
    (h1 : t ≤ 1) :
    logsnr_schedule_cosine t (-15) 15 =
      -2 * Real.log (Real.tan (Real.arctan (Real.exp (-0.5 * 15)) +
        t * (Real.arctan (Real.exp (-0.5 * (-15))) -
          Real.arctan (Real.exp (-0.5 * 15))))) ∧
    -15 ≤ logsnr_schedule_cosine t (-15) 15 ∧
    logsnr_schedule_cosine t (-15) 15 ≤ 15 := by
  have e := logsnrCosineDefault_eq_tan t h0 h1
  have hub := tan_cosineArg_ub t h0 h1
  have hlb := tan_cosineArg_lb t h0 h1
  have hpos := tan_cosineArg_pos t h0 h1
  have l1 : Real.log (Real.tan (cosineArg t)) ≤ 7.5 := by
    have h := Real.log_le_log hpos hub
    rwa [Real.log_exp] at h
  have l2 : (-7.5 : ℝ) ≤ Real.log (Real.tan (cosineArg t)) := by
    have h := Real.log_le_log (Real.exp_pos _) hlb
    rwa [Real.log_exp] at h
  refine ⟨e, ?_, ?_⟩
  · show (-15 : ℝ) ≤ logsnrCosineDefault t
    rw [e]
    linarith
  · show logsnrCosineDefault t ≤ 15
    rw [e]
    linarith

/-- C7 witness: the closed-form and bounds instantiated at `t = 0`. -/
theorem logsnr_cosine_default_formula_and_bounds_witness :
    logsnr_schedule_cosine 0 (-15) 15 =
      -2 * Real.log (Real.tan (Real.arctan (Real.exp (-0.5 * 15)) +
        0 * (Real.arctan (Real.exp (-0.5 * (-15))) -
          Real.arctan (Real.exp (-0.5 * 15))))) ∧
    -15 ≤ logsnr_schedule_cosine 0 (-15) 15 ∧
    logsnr_schedule_cosine 0 (-15) 15 ≤ 15 :=
  logsnr_cosine_default_formula_and_bounds 0 le_rfl zero_le_one

/-- C10: on `[0, 1]` with the default bounds, the argument handed to `tan`
lies strictly inside `(0, π/2)`, `tan` of it is strictly greater than the
`1e-20` clamp floor (so the clamp inside the `log` helper never triggers), and
the schedule evaluates clamp-free to `−2·log(tan(·))` — a finite real value on
the whole interval. -/
theorem logsnr_cosine_domain_total (t : ℝ) (h0 : 0 ≤ t) (h1 : t ≤ 1) :
    0 < cosineArg t ∧ cosineArg t < Real.pi / 2 ∧
    (1e-20 : ℝ) < Real.tan (cosineArg t) ∧
    logsnr_schedule_cosine t (-15) 15 = -2 * Real.log (Real.tan (cosineArg t)) :=
  ⟨cosineArg_pos t h0, cosineArg_lt_half_pi t h1, eps_lt_tan_cosineArg t h0 h1,
    logsnrCosineDefault_eq_tan t h0 h1⟩

/-- C10 witness: the domain-safety facts instantiated at `t = 1`. -/
theorem logsnr_cosine_domain_total_witness :
    0 < cosineArg 1 ∧ cosineArg 1 < Real.pi / 2 ∧
    (1e-20 : ℝ) < Real.tan (cosineArg 1) ∧
    logsnr_schedule_cosine 1 (-15) 15 = -2 * Real.log (Real.tan (cosineArg 1)) :=
  logsnr_cosine_domain_total 1 zero_le_one le_rfl

end

end SimpleDiffusion
